import Mathlib

/-!
Shallow embedding of the binary-options settlement / sizing core of the
`deriv-bot` repository (package `binary_backtester`), together with proofs
of its specified properties.

Conventions used throughout:
* Python `float` prices, stakes, cash and time values are modelled as `ℚ`.
* Times are expressed in minutes (the unit of `expiry_minutes`,
  `cooldown_minutes` and `timedelta(minutes=...)` in the source).
* A Python `dict` is modelled as an association list whose insert replaces
  any previous binding of the key and whose delete removes the key.
* Fallible operations return `Option` results, mirroring the `return None`
  paths of the source.
-/

namespace DerivBot

/-- Contract direction.  The source stores it as one of the strings
`'CALL'` / `'PUT'` and raises `ValueError` on anything else, so the two
legal values form an enumeration. -/
inductive Direction
  | CALL
  | PUT
deriving DecidableEq, Repr

/-- Contract status, the source's strings `'open'` / `'won'` / `'lost'`
(`src/packages/binary_backtester/core/binary_trade_manager.py`). -/
inductive Status
  | Open
  | Won
  | Lost
deriving DecidableEq, Repr

/-- The `BinaryContract` dataclass from
`src/packages/binary_backtester/core/binary_trade_manager.py`.
Contract ids are the counter values behind the `f"contract_{n}"` strings. -/
structure BinaryContract where
  id : ℕ
  direction : Direction
  entryPrice : ℚ
  entryTime : ℚ
  expirationTime : ℚ
  stake : ℚ
  payoutRate : ℚ
  status : Status := Status.Open
  resultPrice : Option ℚ := none
  profit : Option ℚ := none
deriving DecidableEq, Repr

/-- State of `BinaryTradeManager`
(`src/packages/binary_backtester/core/binary_trade_manager.py`).
`contracts` is the dict of open contracts keyed by id. -/
structure BinaryTradeManager where
  payoutRate : ℚ
  contracts : List (ℕ × BinaryContract)
  completedContracts : List BinaryContract
  contractCounter : ℕ
deriving DecidableEq, Repr

/-- Delete a key from the dict model (`del self.contracts[contract_id]`). -/
def removeKey (k : ℕ) (l : List (ℕ × BinaryContract)) : List (ℕ × BinaryContract) :=
  l.filter (fun kv => kv.1 ≠ k)

/-- Dict insertion `self.contracts[contract_id] = contract` (replaces any
previous binding of the key). -/
def insertKey (k : ℕ) (c : BinaryContract) (l : List (ℕ × BinaryContract)) :
    List (ℕ × BinaryContract) :=
  (k, c) :: removeKey k l

/-- The `BinaryTradeManager.__init__` (default `payout_rate=0.8`); it performs
no validation of `payout_rate`. -/
def BinaryTradeManager.init (payoutRate : ℚ) : BinaryTradeManager :=
  { payoutRate := payoutRate
    contracts := []
    completedContracts := []
    contractCounter := 0 }

/-- The `BinaryTradeManager.create_contract`: builds a contract with the
manager's current `payout_rate`, registers it in the open dict and bumps
the counter. -/
def createContract (m : BinaryTradeManager) (direction : Direction)
    (entryPrice entryTime expirationTime stake : ℚ) :
    BinaryContract × BinaryTradeManager :=
  let c : BinaryContract :=
    { id := m.contractCounter
      direction := direction
      entryPrice := entryPrice
      entryTime := entryTime
      expirationTime := expirationTime
      stake := stake
      payoutRate := m.payoutRate }
  (c, { m with
          contracts := insertKey c.id c m.contracts
          contractCounter := m.contractCounter + 1 })

/-- The `BinaryTradeManager._check_contract_result`: CALL wins iff the current
price is strictly above the entry price, PUT wins iff strictly below. -/
def checkContractResult (c : BinaryContract) (currentPrice : ℚ) : Bool :=
  match c.direction with
  | Direction.CALL => decide (c.entryPrice < currentPrice)
  | Direction.PUT => decide (currentPrice < c.entryPrice)

/-- The `BinaryTradeManager.evaluate_contract`: settles the contract with the
given id (if present and open), computing status, result price and profit,
moving it from the open dict to `completed_contracts`.  Returns the settled
contract together with the new manager state, or `none` (and the unchanged
state) if the id is unknown or already settled. -/
def evaluateContract (m : BinaryTradeManager) (contractId : ℕ) (currentPrice : ℚ) :
    Option BinaryContract × BinaryTradeManager :=
  match m.contracts.lookup contractId with
  | none => (none, m)
  | some c =>
    if c.status ≠ Status.Open then (none, m)
    else
      let won := checkContractResult c currentPrice
      let profit : ℚ := if won then c.stake * c.payoutRate else -c.stake
      let c' := { c with
                    status := if won then Status.Won else Status.Lost
                    resultPrice := some currentPrice
                    profit := some profit }
      (some c', { m with
                    completedContracts := m.completedContracts ++ [c']
                    contracts := removeKey contractId m.contracts })

/-- The `Config` dataclass from
`src/packages/binary_backtester/config/settings.py` (numeric fields; the
`start_date`/`end_date` defaulting in `__post_init__` reads the wall clock
and is outside this model).  The dataclass performs no validation of any
field. -/
structure Config where
  timeframe : ℤ := 60
  initialCash : ℚ := 1000
  expirationTime : ℤ := 1
  payout : ℚ := 4/5
  riskPerTrade : ℚ := 1/100
  daysBack : ℤ := 30
  rsiPeriod : ℤ := 14
  rsiOversold : ℚ := 30
  rsiOverbought : ℚ := 70
deriving DecidableEq, Repr

/-- The `Config.stake_amount` property. -/
def Config.stakeAmount (c : Config) : ℚ := c.initialCash * c.riskPerTrade

/-! ## MeanReversionStrategy
(`src/packages/binary_backtester/strategies/mean_reversion_strategy.py`)

The signal generator (`_check_signal`, driven by Bollinger/RSI/ATR
indicators over the candle history) is the external collaborator of the
settlement core; each candle therefore carries the generator's output for
that tick as an oracle value. -/

/-- Parameters of `MeanReversionStrategy` that the settlement / sizing core
reads (`params` tuple of the class).  Signal-indicator parameters are part
of the external signal generator and are not modelled. -/
structure MRParams where
  baseStakePct : ℚ := 1/100
  maxStakePct : ℚ := 1/20
  minStakePct : ℚ := 1/1000
  maxWinStreak : ℕ := 2
  maxLossStreak : ℕ := 3
  expiryMinutes : ℚ := 3
  cooldownMinutes : ℚ := 2
  maxConcurrentTrades : ℕ := 3
deriving DecidableEq, Repr

/-- One entry of `pending_trades` / `completed_trades` (the `trade_info`
dict built in `_execute_trade`; the `signal_details`, `win_streak`,
`loss_streak` and `progressive_stake` logging fields are omitted). -/
structure MRTrade where
  entryTime : ℚ
  direction : Direction
  strength : ℤ
  stake : ℚ
  entryPrice : ℚ
  expiryTime : ℚ
  result : Option Bool := none
  exitPrice : Option ℚ := none
  profit : ℚ := 0
deriving DecidableEq, Repr

/-- Mutable instance state of `MeanReversionStrategy` (the attributes set
in `__init__`), together with the broker cash it reads and writes through
`self.broker`. -/
structure MRState where
  pendingTrades : List MRTrade
  completedTrades : List MRTrade
  winStreak : ℕ
  lossStreak : ℕ
  currentStake : Option ℚ
  lastProfit : ℚ
  lastTradeTime : Option ℚ
  totalProfit : ℚ
  wins : ℕ
  losses : ℕ
  tradesExecuted : ℕ
  cash : ℚ
deriving DecidableEq, Repr

/-- Strategy state at backtest start (`__init__` plus the broker holding
the initial cash). -/
def MRState.init (initialCash : ℚ) : MRState :=
  { pendingTrades := []
    completedTrades := []
    winStreak := 0
    lossStreak := 0
    currentStake := none
    lastProfit := 0
    lastTradeTime := none
    totalProfit := 0
    wins := 0
    losses := 0
    tradesExecuted := 0
    cash := initialCash }

/-- The `MeanReversionStrategy._update_anti_martingale`: progressive-cycles
anti-martingale update, called once per settled trade. -/
def updateAntiMartingale (p : MRParams) (st : MRState) (won : Bool)
    (profit stake : ℚ) : MRState :=
  if won then
    let st := { st with
                  winStreak := st.winStreak + 1
                  lossStreak := 0
                  currentStake := some (stake + profit)
                  lastProfit := profit }
    if st.winStreak ≥ p.maxWinStreak then
      { st with winStreak := 0, currentStake := none, lastProfit := 0 }
    else st
  else
    let st := { st with
                  lossStreak := st.lossStreak + 1
                  winStreak := 0
                  currentStake := some (stake / 2)
                  lastProfit := profit }
    if st.lossStreak ≥ p.maxLossStreak then
      { st with lossStreak := 0, currentStake := none, lastProfit := 0 }
    else st

/-- The win/loss comparison of `_update_pending_trades`: CALL wins iff the
exit price is strictly above the entry price, otherwise (PUT) iff strictly
below. -/
def tradeWon (direction : Direction) (entryPrice exitPrice : ℚ) : Bool :=
  match direction with
  | Direction.CALL => decide (entryPrice < exitPrice)
  | Direction.PUT => decide (exitPrice < entryPrice)

/-- Settlement of one expired trade inside `_update_pending_trades`:
outcome from the strict price comparison, profit `stake * 0.95` on a win
and `-stake` on a loss (the payout is the literal `0.95` in the source),
statistics, anti-martingale update, broker cash update and the move to
`completed_trades`. -/
def settleTrade (p : MRParams) (st : MRState) (t : MRTrade) (exitPrice : ℚ) :
    MRState :=
  let won := tradeWon t.direction t.entryPrice exitPrice
  let profit : ℚ := if won then t.stake * (19/20) else -t.stake
  let st := if won then { st with wins := st.wins + 1 }
            else { st with losses := st.losses + 1 }
  let st := updateAntiMartingale p st won profit t.stake
  let t' := { t with result := some won, exitPrice := some exitPrice, profit := profit }
  { st with
      totalProfit := st.totalProfit + profit
      cash := st.cash + profit
      completedTrades := st.completedTrades ++ [t'] }

/-- The `MeanReversionStrategy._update_pending_trades`: walks `pending_trades`
in order, settles every trade whose expiry time has been reached at the
current candle's close, and removes the settled trades from the pending
list. -/
def updatePendingTrades (p : MRParams) (st : MRState) (now exitPrice : ℚ) :
    MRState :=
  let r := st.pendingTrades.foldl
    (fun (acc : MRState × List MRTrade) t =>
      if t.expiryTime ≤ now then (settleTrade p acc.1 t exitPrice, acc.2)
      else (acc.1, acc.2 ++ [t]))
    (st, [])
  { r.1 with pendingTrades := r.2 }

/-- Rounding of `round(x, 2)`: Python 3's round-half-to-even applied to the
hundredths digit (integer part; ties go to the even integer). -/
def roundHalfEven (x : ℚ) : ℤ :=
  let n := ⌊x⌋
  let r := x - n
  if r < 1/2 then n
  else if 1/2 < r then n + 1
  else if n % 2 = 0 then n else n + 1

/-- The `round(stake, 2)` of the source, on exact rationals. -/
def round2 (x : ℚ) : ℚ := (roundHalfEven (x * 100) : ℚ) / 100

/-- The strength multiplier of `MeanReversionStrategy._calculate_stake`:
`1.0 + (strength - 1) * 0.1` (baseline strength 1). -/
def strengthMultiplier (strength : ℤ) : ℚ := 1 + (strength - 1) * (1/10)

/-- The `MeanReversionStrategy._calculate_stake` before the final rounding:
progressive base selection, strength multiplier, then the clamp
`max(min_stake, min(stake, max_stake))`. -/
def clampedStake (p : MRParams) (st : MRState) (strength : ℤ) : ℚ :=
  let currentCash := st.cash
  let baseStake := currentCash * p.baseStakePct
  let stake :=
    match st.currentStake with
    | none => baseStake
    | some cs => if st.winStreak = 0 ∧ st.lossStreak = 0 then baseStake else cs
  let stake := stake * strengthMultiplier strength
  let maxStake := currentCash * p.maxStakePct
  let minStake := currentCash * p.minStakePct
  max minStake (min stake maxStake)

/-- The `MeanReversionStrategy._calculate_stake`: the clamped progressive stake
rounded to 2 decimal places. -/
def calculateStake (p : MRParams) (st : MRState) (strength : ℤ) : ℚ :=
  round2 (clampedStake p st strength)

/-- The `MeanReversionStrategy._execute_trade`: computes the stake, appends the
new trade to `pending_trades` (expiry `expiry_minutes` ahead) and starts
the cooldown window. -/
def executeTrade (p : MRParams) (st : MRState) (direction : Direction)
    (strength : ℤ) (now price : ℚ) : MRState :=
  let stake := calculateStake p st strength
  let t : MRTrade :=
    { entryTime := now
      direction := direction
      strength := strength
      stake := stake
      entryPrice := price
      expiryTime := now + p.expiryMinutes }
  { st with
      pendingTrades := st.pendingTrades ++ [t]
      tradesExecuted := st.tradesExecuted + 1
      lastTradeTime := some now }

/-- The `MeanReversionStrategy._in_cooldown`: true iff a previous trade exists
and less than `cooldown_minutes` have elapsed since it. -/
def inCooldown (p : MRParams) (st : MRState) (now : ℚ) : Bool :=
  match st.lastTradeTime with
  | none => false
  | some last => decide (now - last < p.cooldownMinutes)

/-- One candle of the external feed, carrying the timestamp, the close
price and the external signal generator's output for that tick
(`_check_signal` result reduced to its direction and strength). -/
structure Candle where
  time : ℚ
  closePrice : ℚ
  signal : Option (Direction × ℤ)
deriving DecidableEq, Repr

/-- The `MeanReversionStrategy.next`, in the source's statement order: the
cooldown check and the max-concurrent-trades check come FIRST and return
early; only then are pending trades settled and the signal acted upon. -/
def MRnext (p : MRParams) (st : MRState) (c : Candle) : MRState :=
  if inCooldown p st c.time then st
  else if st.pendingTrades.length ≥ p.maxConcurrentTrades then st
  else
    let st := updatePendingTrades p st c.time c.closePrice
    match c.signal with
    | some (dir, strength) => executeTrade p st dir strength c.time c.closePrice
    | none => st

/-- A whole backtest run: fold `next` over the candle feed starting from
the freshly initialized strategy. -/
def MRrun (p : MRParams) (initialCash : ℚ) (candles : List Candle) : MRState :=
  candles.foldl (MRnext p) (MRState.init initialCash)

/-! ## MeanReversionStrategyV4
(`src/packages/binary_backtester/strategies/mean_reversion_strategy_v4.py`)

V4 routes contracts through backtrader's broker (`self.buy`/`self.sell`)
instead of a pending list; expiry settlement is performed by the
`BinaryOptionsBroker` that the run scripts install, a module imported as
`from brokers import BinaryOptionsBroker` and not present under `src/`. -/

/-- Parameters of `MeanReversionStrategyV4` read by the settlement/sizing
core, plus the broker's `payout_rate` (the run script passes `0.95` to
`BinaryOptionsBroker`). -/
structure V4Params where
  baseStakePct : ℚ := 1/100
  maxStakePct : ℚ := 1/20
  minStakePct : ℚ := 1/1000
  maxWinStreak : ℕ := 2
  maxLossStreak : ℕ := 3
  expiryMinutes : ℚ := 2
  cooldownMinutes : ℚ := 1
  maxConcurrentTrades : ℕ := 2
  minStrength : ℤ := 2
  brokerPayoutRate : ℚ := 19/20
deriving DecidableEq, Repr

/-- A broker-held open binary trade of the V4 strategy. -/
structure V4Trade where
  entryTime : ℚ
  direction : Direction
  entryPrice : ℚ
  stake : ℚ
deriving DecidableEq, Repr

/-- Mutable instance state of `MeanReversionStrategyV4` plus the broker's
open trades and cash. -/
structure V4State where
  openTrades : List V4Trade
  winStreak : ℕ
  lossStreak : ℕ
  currentStake : Option ℚ
  lastProfit : ℚ
  lastTradeTime : Option ℚ
  tradesExecuted : ℕ
  nextCalls : ℕ
  cash : ℚ
deriving DecidableEq, Repr

/-- V4 strategy state at backtest start. -/
def V4State.init (initialCash : ℚ) : V4State :=
  { openTrades := []
    winStreak := 0
    lossStreak := 0
    currentStake := none
    lastProfit := 0
    lastTradeTime := none
    tradesExecuted := 0
    nextCalls := 0
    cash := initialCash }

/-- The `MeanReversionStrategyV4._update_anti_martingale` (identical update
rule to the baseline strategy's). -/
def v4UpdateAntiMartingale (p : V4Params) (st : V4State) (won : Bool)
    (profit stake : ℚ) : V4State :=
  if won then
    let st := { st with
                  winStreak := st.winStreak + 1
                  lossStreak := 0
                  currentStake := some (stake + profit)
                  lastProfit := profit }
    if st.winStreak ≥ p.maxWinStreak then
      { st with winStreak := 0, currentStake := none, lastProfit := 0 }
    else st
  else
    let st := { st with
                  lossStreak := st.lossStreak + 1
                  winStreak := 0
                  currentStake := some (stake / 2)
                  lastProfit := profit }
    if st.lossStreak ≥ p.maxLossStreak then
      { st with lossStreak := 0, currentStake := none, lastProfit := 0 }
    else st

/-- The strength multiplier of `MeanReversionStrategyV4._calculate_stake`:
`1.0 + (strength - 2) * 0.1` (baseline strength 2). -/
def v4StrengthMultiplier (strength : ℤ) : ℚ := 1 + (strength - 2) * (1/10)

/-- The `MeanReversionStrategyV4._calculate_stake` before the final rounding. -/
def v4ClampedStake (p : V4Params) (st : V4State) (strength : ℤ) : ℚ :=
  let currentCash := st.cash
  let baseStake := currentCash * p.baseStakePct
  let stake :=
    match st.currentStake with
    | none => baseStake
    | some cs => if st.winStreak = 0 ∧ st.lossStreak = 0 then baseStake else cs
  let stake := stake * v4StrengthMultiplier strength
  let maxStake := currentCash * p.maxStakePct
  let minStake := currentCash * p.minStakePct
  max minStake (min stake maxStake)

/-- The `MeanReversionStrategyV4._calculate_stake`. -/
def v4CalculateStake (p : V4Params) (st : V4State) (strength : ℤ) : ℚ :=
  round2 (v4ClampedStake p st strength)

/-- The `MeanReversionStrategyV4._in_cooldown`. -/
def v4InCooldown (p : V4Params) (st : V4State) (now : ℚ) : Bool :=
  match st.lastTradeTime with
  | none => false
  | some last => decide (now - last < p.cooldownMinutes)

/-- The `MeanReversionStrategyV4._execute_trade`: computes the stake and
places the order with the broker (opening one more trade), with no check
whatsoever of `max_concurrent_trades`, then starts the cooldown window. -/
def v4ExecuteTrade (p : V4Params) (st : V4State) (direction : Direction)
    (strength : ℤ) (now price : ℚ) : V4State :=
  let stake := v4CalculateStake p st strength
  let t : V4Trade :=
    { entryTime := now, direction := direction, entryPrice := price, stake := stake }
  { st with
      openTrades := st.openTrades ++ [t]
      tradesExecuted := st.tradesExecuted + 1
      lastTradeTime := some now }

/-- Settlement of one expired broker trade followed by the strategy's
`notify_trade` reaction (`won = trade.pnl > 0`, anti-martingale update
with the trade's pnl and stake). -/
def v4SettleTrade (p : V4Params) (st : V4State) (t : V4Trade) (exitPrice : ℚ) :
    V4State :=
  let pnl : ℚ :=
    if tradeWon t.direction t.entryPrice exitPrice then t.stake * p.brokerPayoutRate
    else -t.stake
  let st := { st with cash := st.cash + pnl }
  v4UpdateAntiMartingale p st (decide (0 < pnl)) pnl t.stake

/-- Modelled from the spec: the `BinaryOptionsBroker` installed by the run
scripts (module `brokers`, not present under `src/`) settles every open
contract once the current time reaches `entry_time + expiry_duration`,
crediting the payout or debiting the stake and notifying the strategy;
contracts are never closed before expiry (there is no early-exit path). -/
def v4BrokerSettle (p : V4Params) (st : V4State) (now exitPrice : ℚ) : V4State :=
  let r := st.openTrades.foldl
    (fun (acc : V4State × List V4Trade) t =>
      if t.entryTime + p.expiryMinutes ≤ now then (v4SettleTrade p acc.1 t exitPrice, acc.2)
      else (acc.1, acc.2 ++ [t]))
    (st, [])
  { r.1 with openTrades := r.2 }

/-- One candle step of the V4 backtest: the broker first settles expired
contracts, then `MeanReversionStrategyV4.next` runs — a cooldown check and
the signal poll, with no concurrency-limit check anywhere. -/
def v4Next (p : V4Params) (st : V4State) (c : Candle) : V4State :=
  let st := v4BrokerSettle p st c.time c.closePrice
  let st := { st with nextCalls := st.nextCalls + 1 }
  if v4InCooldown p st c.time then st
  else
    match c.signal with
    | some (dir, strength) => v4ExecuteTrade p st dir strength c.time c.closePrice
    | none => st

/-- A whole V4 backtest run. -/
def v4Run (p : V4Params) (initialCash : ℚ) (candles : List Candle) : V4State :=
  candles.foldl (v4Next p) (V4State.init initialCash)

/-- Modelled from the spec: the strength-bonus step as the spec words it
(`stake *= 1 + max(0, signal_strength - baseline_strength) * strength_bonus_pct`),
with `MeanReversionStrategy`'s baseline strength 1 and bonus 0.1, for
comparison against the code's multiplier. -/
def strengthBonusSpec (strength : ℤ) : ℚ :=
  1 + ((max 0 (strength - 1) : ℤ) : ℚ) * (1/10)

/-- Modelled from the spec: the same spec formula with
`MeanReversionStrategyV4`'s baseline strength 2 and bonus 0.1. -/
def v4StrengthBonusSpec (strength : ℤ) : ℚ :=
  1 + ((max 0 (strength - 2) : ℤ) : ℚ) * (1/10)

/-- The trade opened by the C8 witness candle (CALL at time 0, price 100,
stake 10, default 3-minute expiry). -/
def c8Trade : MRTrade :=
  { entryTime := 0, direction := Direction.CALL, strength := 1, stake := 10,
    entryPrice := 100, expiryTime := 3 }

/-! ## Concrete witness inputs

Concrete managers / contracts used by the witness theorems below. -/

/-- Concrete inputs for the C1 witness: a freshly created CALL contract at
entry price 100 and its settlement at price 101. -/
def c1Open : BinaryContract :=
  { id := 0, direction := Direction.CALL, entryPrice := 100, entryTime := 0,
    expirationTime := 1, stake := 10, payoutRate := 4/5 }

def c1Manager : BinaryTradeManager :=
  { payoutRate := 4/5, contracts := [(0, c1Open)],
    completedContracts := [], contractCounter := 1 }

def c1Settled : BinaryContract :=
  { c1Open with status := Status.Won, resultPrice := some 101, profit := some 8 }

def c1Final : BinaryTradeManager :=
  { payoutRate := 4/5, contracts := [],
    completedContracts := [c1Settled], contractCounter := 1 }

/-- Concrete inputs for the C3 witness. -/
def c3Open : BinaryContract :=
  { id := 0, direction := Direction.PUT, entryPrice := 50, entryTime := 0,
    expirationTime := 2, stake := 20, payoutRate := 4/5 }

def c3Manager : BinaryTradeManager :=
  { payoutRate := 4/5, contracts := [(0, c3Open)],
    completedContracts := [], contractCounter := 1 }

def c3Settled : BinaryContract :=
  { c3Open with status := Status.Lost, resultPrice := some 55, profit := some (-20) }

def c3Final : BinaryTradeManager :=
  { payoutRate := 4/5, contracts := [],
    completedContracts := [c3Settled], contractCounter := 1 }

/-- Concrete inputs for the C4 witness. -/
def c4Open : BinaryContract :=
  { id := 0, direction := Direction.CALL, entryPrice := 100, entryTime := 0,
    expirationTime := 1, stake := 10, payoutRate := 4/5 }

def c4Manager : BinaryTradeManager :=
  { payoutRate := 4/5, contracts := [(0, c4Open)],
    completedContracts := [], contractCounter := 1 }

def c4Settled : BinaryContract :=
  { c4Open with status := Status.Won, resultPrice := some 101, profit := some 8 }

def c4Final : BinaryTradeManager :=
  { payoutRate := 4/5, contracts := [],
    completedContracts := [c4Settled], contractCounter := 1 }


/-! ## General lemmas about the embedded operations -/

/-- The win/loss comparison of the strategies' `_update_pending_trades` /
`_evaluate_contract`, characterised. -/
theorem tradeWon_iff (d : Direction) (entry exitP : ℚ) :
    tradeWon d entry exitP = true ↔
      (d = Direction.CALL ∧ entry < exitP) ∨ (d = Direction.PUT ∧ exitP < entry) := by
  cases d <;> simp [tradeWon]

/-- The manager's `_check_contract_result`, characterised. -/
theorem checkContractResult_iff (c : BinaryContract) (price : ℚ) :
    checkContractResult c price = true ↔
      (c.direction = Direction.CALL ∧ c.entryPrice < price) ∨
      (c.direction = Direction.PUT ∧ price < c.entryPrice) := by
  cases hd : c.direction <;> simp [checkContractResult, hd]

/-- Deleting a key from the dict model removes every binding of it. -/
theorem lookup_removeKey (k : ℕ) (l : List (ℕ × BinaryContract)) :
    (removeKey k l).lookup k = none := by
  induction l with
  | nil => rfl
  | cons kv rest ih =>
    rcases kv with ⟨a, b⟩
    by_cases hk : a = k
    · simpa [removeKey, List.filter, hk] using ih
    · have hbeq : (k == a) = false := by
        simp [Ne.symm hk]
      simpa [removeKey, List.filter, hk, List.lookup, hbeq] using ih

/-- Successful settlement removes the contract from the open dict, adds the
settled version to the completed list and leaves the manager's other fields
alone. -/
theorem evaluateContract_eq_some (m : BinaryTradeManager) (contractId : ℕ)
    (price : ℚ) (c : BinaryContract) (m' : BinaryTradeManager)
    (h : evaluateContract m contractId price = (some c, m')) :
    ∃ c0, m.contracts.lookup contractId = some c0 ∧ c0.status = Status.Open ∧
      c = { c0 with
              status := if checkContractResult c0 price then Status.Won else Status.Lost
              resultPrice := some price
              profit := some (if checkContractResult c0 price then c0.stake * c0.payoutRate
                              else -c0.stake) } ∧
      m' = { m with
               completedContracts := m.completedContracts ++ [c]
               contracts := removeKey contractId m.contracts } := by
  rw [evaluateContract] at h
  cases hl : m.contracts.lookup contractId with
  | none =>
    rw [hl] at h
    exact absurd (congrArg Prod.fst h) (by simp)
  | some c0 =>
    rw [hl] at h
    dsimp only at h
    by_cases hs : c0.status = Status.Open
    · rw [if_neg (by simpa using hs)] at h
      have h1 := congrArg Prod.fst h
      have h2 := congrArg Prod.snd h
      dsimp only at h1 h2
      refine ⟨c0, rfl, hs, ?_, ?_⟩
      · exact (Option.some.inj h1).symm
      · rw [← h2, ← Option.some.inj h1]
    · rw [if_pos (by simpa using hs)] at h
      exact absurd (congrArg Prod.fst h) (by simp)

/-! ## C1 — outcome correctness -/

/-- C1: for every settled contract, the outcome is Won if and only if
(direction is Call and exit price > entry price) or (direction is Put and
exit price < entry price); an exact tie is marked Lost regardless of
direction.  Stated for the manager's `evaluate_contract` and for the
strategies' per-trade win comparison. -/
theorem settled_outcome_iff_strict_comparison :
    (∀ (m : BinaryTradeManager) (contractId : ℕ) (price : ℚ)
        (c : BinaryContract) (m' : BinaryTradeManager),
        evaluateContract m contractId price = (some c, m') →
        ((c.status = Status.Won ↔
            (c.direction = Direction.CALL ∧ c.entryPrice < price) ∨
            (c.direction = Direction.PUT ∧ price < c.entryPrice)) ∧
          (price = c.entryPrice → c.status = Status.Lost))) ∧
      ∀ (d : Direction) (entry exitP : ℚ),
        (tradeWon d entry exitP = true ↔
          (d = Direction.CALL ∧ entry < exitP) ∨
          (d = Direction.PUT ∧ exitP < entry)) ∧
        (exitP = entry → tradeWon d entry exitP = false) := by
  constructor
  · intro m contractId price c m' h
    obtain ⟨c0, _, _, hc, _⟩ := evaluateContract_eq_some m contractId price c m' h
    subst hc
    have hiff := checkContractResult_iff c0 price
    by_cases hw : checkContractResult c0 price = true
    · have hwin := hiff.mp hw
      constructor
      · simpa [hw] using hwin
      · intro htie
        simp only at htie
        exfalso
        rcases hwin with ⟨_, hlt⟩ | ⟨_, hlt⟩ <;> rw [htie] at hlt <;>
          exact lt_irrefl _ hlt
    · have hnowin := (not_congr hiff).mp hw
      constructor
      · simpa [hw] using hnowin
      · intro _
        simp [hw]
  · intro d entry exitP
    refine ⟨tradeWon_iff d entry exitP, fun htie => ?_⟩
    subst htie
    cases d <;> simp [tradeWon]

/-- Witness for C1 at a concrete settlement. -/
theorem settled_outcome_iff_strict_comparison_witness :
    (c1Settled.status = Status.Won ↔
      (c1Settled.direction = Direction.CALL ∧ c1Settled.entryPrice < 101) ∨
      (c1Settled.direction = Direction.PUT ∧ (101 : ℚ) < c1Settled.entryPrice)) ∧
    ((101 : ℚ) = c1Settled.entryPrice → c1Settled.status = Status.Lost) :=
  settled_outcome_iff_strict_comparison.1 c1Manager 0 101 c1Settled c1Final
    (by norm_num [evaluateContract, List.lookup, checkContractResult, removeKey,
      List.filter, c1Manager, c1Open, c1Settled, c1Final])

/-! ## C3 — profit formula and open-time payout capture -/

/-- C3: the profit recorded at settlement is `stake * payout_rate` on a
win and `-stake` on a loss, where `payout_rate` is the value captured on
the contract when it was created — changing the manager's configured
`payout_rate` between creation and settlement does not affect the profit. -/
theorem profit_uses_open_time_payout :
    (∀ (m : BinaryTradeManager) (d : Direction) (ep et xt stk : ℚ),
        ((createContract m d ep et xt stk).1).payoutRate = m.payoutRate) ∧
    (∀ (m : BinaryTradeManager) (contractId : ℕ) (price : ℚ)
        (c : BinaryContract) (m' : BinaryTradeManager),
        evaluateContract m contractId price = (some c, m') →
        c.profit = some (if c.status = Status.Won then c.stake * c.payoutRate
                         else -c.stake)) ∧
    ∀ (m : BinaryTradeManager) (d : Direction) (ep et xt stk q price : ℚ),
      ((evaluateContract
            { (createContract m d ep et xt stk).2 with payoutRate := q }
            ((createContract m d ep et xt stk).1).id price).1.map
          BinaryContract.profit) =
        some (some (if checkContractResult (createContract m d ep et xt stk).1 price
                    then stk * m.payoutRate else -stk)) := by
  refine ⟨fun m d ep et xt stk => rfl, ?_, ?_⟩
  · intro m contractId price c m' h
    obtain ⟨c0, _, _, hc, _⟩ := evaluateContract_eq_some m contractId price c m' h
    subst hc
    by_cases hw : checkContractResult c0 price = true <;> simp [hw]
  · intro m d ep et xt stk q price
    simp only [createContract, insertKey, evaluateContract, List.lookup,
      beq_self_eq_true]
    norm_num [checkContractResult]

/-- Witness for C3 at a concrete losing settlement. -/
theorem profit_uses_open_time_payout_witness :
    c3Settled.profit = some (if c3Settled.status = Status.Won
                             then c3Settled.stake * c3Settled.payoutRate
                             else -c3Settled.stake) :=
  profit_uses_open_time_payout.2.1 c3Manager 0 55 c3Settled c3Final
    (by norm_num [evaluateContract, List.lookup, checkContractResult, removeKey,
      List.filter, c3Manager, c3Open, c3Settled, c3Final])

/-! ## C4 — settlement happens at most once -/

/-- C4: a contract is settled at most once.  The first successful
settlement removes the contract id from the open dict in the same step,
and any later settlement attempt for that id — or for an id that is not in
the open dict — returns `None` and leaves the whole manager state
(ledger dict, completed list, every contract) unchanged. -/
theorem settlement_at_most_once :
    ∀ (m : BinaryTradeManager) (contractId : ℕ) (price : ℚ),
      (m.contracts.lookup contractId = none →
        evaluateContract m contractId price = (none, m)) ∧
      ∀ (c : BinaryContract) (m' : BinaryTradeManager),
        evaluateContract m contractId price = (some c, m') →
        m'.contracts.lookup contractId = none ∧
        ∀ price2 : ℚ, evaluateContract m' contractId price2 = (none, m') := by
  intro m contractId price
  constructor
  · intro h
    simp [evaluateContract, h]
  · intro c m' h
    obtain ⟨c0, _, _, _, hm⟩ := evaluateContract_eq_some m contractId price c m' h
    have hnone : m'.contracts.lookup contractId = none := by
      rw [hm]; exact lookup_removeKey _ _
    exact ⟨hnone, fun price2 => by simp [evaluateContract, hnone]⟩

/-- Witness for C4: settling the lone contract empties the open dict and a
second settlement attempt (at a different price) is a no-op; an unknown id
is also a no-op. -/
theorem settlement_at_most_once_witness :
    (evaluateContract c4Final 7 99 = (none, c4Final)) ∧
    c4Final.contracts.lookup 0 = none ∧
    evaluateContract c4Final 0 103 = (none, c4Final) := by
  have heval : evaluateContract c4Manager 0 101 = (some c4Settled, c4Final) := by
    norm_num [evaluateContract, List.lookup, checkContractResult, removeKey,
      List.filter, c4Manager, c4Open, c4Settled, c4Final]
  have h2 := (settlement_at_most_once c4Manager 0 101).2 c4Settled c4Final heval
  refine ⟨(settlement_at_most_once c4Final 7 99).1 (by rfl), h2.1, h2.2 103⟩

/-! ## C2 — anti-martingale update rule -/

/-- C2: for every settlement fed to the sizer update: on a win the win
streak is incremented, the loss streak zeroed and the next stake becomes
`stake + profit`, then if the win streak reached `max_win_streak` both the
streak and the stake are reset (streak to 0, stake to unset); on a loss
the loss streak is incremented, the win streak zeroed and the next stake
becomes `stake / 2` (the profit is not added), with the symmetric reset at
`max_loss_streak`.  Stated for both strategies' `_update_anti_martingale`. -/
theorem anti_martingale_update_rule :
    ∀ (p : MRParams) (st : MRState) (q : V4Params) (vst : V4State)
      (won : Bool) (profit stake : ℚ),
      ((updateAntiMartingale p st won profit stake).winStreak =
          (if won = true ∧ st.winStreak + 1 < p.maxWinStreak
           then st.winStreak + 1 else 0) ∧
        (updateAntiMartingale p st won profit stake).lossStreak =
          (if won = false ∧ st.lossStreak + 1 < p.maxLossStreak
           then st.lossStreak + 1 else 0) ∧
        (updateAntiMartingale p st won profit stake).currentStake =
          (if won = true then
             (if p.maxWinStreak ≤ st.winStreak + 1 then none
              else some (stake + profit))
           else
             (if p.maxLossStreak ≤ st.lossStreak + 1 then none
              else some (stake / 2)))) ∧
      ((v4UpdateAntiMartingale q vst won profit stake).winStreak =
          (if won = true ∧ vst.winStreak + 1 < q.maxWinStreak
           then vst.winStreak + 1 else 0) ∧
        (v4UpdateAntiMartingale q vst won profit stake).lossStreak =
          (if won = false ∧ vst.lossStreak + 1 < q.maxLossStreak
           then vst.lossStreak + 1 else 0) ∧
        (v4UpdateAntiMartingale q vst won profit stake).currentStake =
          (if won = true then
             (if q.maxWinStreak ≤ vst.winStreak + 1 then none
              else some (stake + profit))
           else
             (if q.maxLossStreak ≤ vst.lossStreak + 1 then none
              else some (stake / 2)))) := by
  intro p st q vst won profit stake
  constructor
  · cases won <;>
      simp only [updateAntiMartingale, Bool.false_eq_true, if_true, if_false,
        ite_true, ite_false, ge_iff_le] <;>
      split_ifs <;> simp_all <;> omega
  · cases won <;>
      simp only [v4UpdateAntiMartingale, Bool.false_eq_true, if_true, if_false,
        ite_true, ite_false, ge_iff_le] <;>
      split_ifs <;> simp_all <;> omega

/-! ## C10 — configuration is not validated at construction time -/

/-- C10 counterexample: constructing the engine with an invalid
configuration succeeds.  `BinaryTradeManager(-1)` and `Config(payout=-1)`
both accept the negative payout without any error, and the engine then
runs with it: a *winning* contract settles with profit `10 * (-1) = -10`. -/
theorem negative_payout_construction_succeeds :
    (BinaryTradeManager.init (-1)).payoutRate = -1 ∧
    ({ payout := -1 } : Config).payout = -1 ∧
    ((evaluateContract
          (createContract (BinaryTradeManager.init (-1))
            Direction.CALL 100 0 1 10).2 0 101).1.map
        BinaryContract.profit) = some (some (-10)) := by
  refine ⟨rfl, rfl, ?_⟩
  norm_num [evaluateContract, createContract, BinaryTradeManager.init,
    insertKey, removeKey, List.lookup, checkContractResult]

/-- C10 (amended): no constructor in the settlement core validates its
configuration — `BinaryTradeManager.__init__` and the `Config` dataclass
accept every value (negative payout rates included) unchanged, and the
strategies' `params` tuples are likewise unchecked overridable defaults. -/
theorem construction_accepts_any_configuration :
    ∀ (payoutRate initialCash riskPerTrade : ℚ) (expirationTime : ℤ),
      (BinaryTradeManager.init payoutRate).payoutRate = payoutRate ∧
      (BinaryTradeManager.init payoutRate).contracts = [] ∧
      ({ payout := payoutRate, initialCash := initialCash,
         riskPerTrade := riskPerTrade,
         expirationTime := expirationTime } : Config).payout = payoutRate ∧
      ({ payout := payoutRate, initialCash := initialCash,
         riskPerTrade := riskPerTrade,
         expirationTime := expirationTime } : Config).stakeAmount =
        initialCash * riskPerTrade :=
  fun _ _ _ _ => ⟨rfl, rfl, rfl, rfl⟩

/-! ## Lemmas on the MeanReversionStrategy event loop -/

/-- The anti-martingale update touches only the streak bookkeeping. -/
theorem updateAntiMartingale_cash (p : MRParams) (st : MRState) (won : Bool)
    (profit stake : ℚ) :
    (updateAntiMartingale p st won profit stake).cash = st.cash := by
  simp only [updateAntiMartingale]; split_ifs <;> rfl

theorem updateAntiMartingale_completed (p : MRParams) (st : MRState) (won : Bool)
    (profit stake : ℚ) :
    (updateAntiMartingale p st won profit stake).completedTrades =
      st.completedTrades := by
  simp only [updateAntiMartingale]; split_ifs <;> rfl

theorem updateAntiMartingale_pending (p : MRParams) (st : MRState) (won : Bool)
    (profit stake : ℚ) :
    (updateAntiMartingale p st won profit stake).pendingTrades =
      st.pendingTrades := by
  simp only [updateAntiMartingale]; split_ifs <;> rfl

/-- Settling one expired trade adds exactly its profit to the broker cash,
appends exactly the settled trade to the completed list and leaves the
pending list alone. -/
theorem settleTrade_fields (p : MRParams) (st : MRState) (t : MRTrade) (xp : ℚ) :
    (settleTrade p st t xp).cash =
        st.cash + (if tradeWon t.direction t.entryPrice xp then t.stake * (19/20)
                   else -t.stake) ∧
    (settleTrade p st t xp).completedTrades =
        st.completedTrades ++
          [{ t with
               result := some (tradeWon t.direction t.entryPrice xp),
               exitPrice := some xp,
               profit := if tradeWon t.direction t.entryPrice xp then t.stake * (19/20)
                         else -t.stake }] ∧
    (settleTrade p st t xp).pendingTrades = st.pendingTrades := by
  cases hw : tradeWon t.direction t.entryPrice xp <;>
    simp [settleTrade, hw, updateAntiMartingale_cash,
      updateAntiMartingale_completed, updateAntiMartingale_pending]

/-- The settlement step keeps the quantity `cash - sum of completed
profits` unchanged. -/
theorem settleTrade_ledger (p : MRParams) (st : MRState) (t : MRTrade) (xp : ℚ) :
    (settleTrade p st t xp).cash -
        ((settleTrade p st t xp).completedTrades.map MRTrade.profit).sum =
      st.cash - (st.completedTrades.map MRTrade.profit).sum := by
  obtain ⟨hc, hcomp, _⟩ := settleTrade_fields p st t xp
  rw [hc, hcomp]
  simp

/-- Characterisation of the fold inside `_update_pending_trades`: the
rebuilt pending list keeps exactly the not-yet-expired trades in order,
the pending field of the accumulated state is never modified, and the
ledger difference `cash - sum of completed profits` is preserved. -/
theorem updatePending_foldl (p : MRParams) (now xp : ℚ) :
    ∀ (l : List MRTrade) (st : MRState) (acc : List MRTrade),
      (l.foldl (fun (a : MRState × List MRTrade) t =>
          if t.expiryTime ≤ now then (settleTrade p a.1 t xp, a.2)
          else (a.1, a.2 ++ [t])) (st, acc)).2 =
        acc ++ l.filter (fun t => now < t.expiryTime) ∧
      (l.foldl (fun (a : MRState × List MRTrade) t =>
          if t.expiryTime ≤ now then (settleTrade p a.1 t xp, a.2)
          else (a.1, a.2 ++ [t])) (st, acc)).1.pendingTrades =
        st.pendingTrades ∧
      (l.foldl (fun (a : MRState × List MRTrade) t =>
          if t.expiryTime ≤ now then (settleTrade p a.1 t xp, a.2)
          else (a.1, a.2 ++ [t])) (st, acc)).1.cash -
          (((l.foldl (fun (a : MRState × List MRTrade) t =>
              if t.expiryTime ≤ now then (settleTrade p a.1 t xp, a.2)
              else (a.1, a.2 ++ [t])) (st, acc)).1.completedTrades.map
            MRTrade.profit).sum) =
        st.cash - ((st.completedTrades.map MRTrade.profit).sum) := by
  intro l
  induction l with
  | nil => intro st acc; simp
  | cons t rest ih =>
    intro st acc
    rw [List.foldl_cons]
    by_cases ht : t.expiryTime ≤ now
    · rw [if_pos ht]
      obtain ⟨h1, h2, h3⟩ := ih (settleTrade p st t xp) acc
      have hnlt : ¬ now < t.expiryTime := not_lt.mpr ht
      refine ⟨?_, ?_, ?_⟩
      · rw [h1, List.filter_cons]
        simp [hnlt]
      · rw [h2, (settleTrade_fields p st t xp).2.2]
      · rw [h3]
        exact settleTrade_ledger p st t xp
    · rw [if_neg ht]
      obtain ⟨h1, h2, h3⟩ := ih st (acc ++ [t])
      have hlt : now < t.expiryTime := lt_of_not_le ht
      refine ⟨?_, ?_, ?_⟩
      · rw [h1, List.filter_cons]
        simp [hlt]
      · exact h2
      · exact h3

/-- The `_update_pending_trades` keeps exactly the not-yet-expired trades
pending, in their original order. -/
theorem updatePendingTrades_pending (p : MRParams) (st : MRState) (now xp : ℚ) :
    (updatePendingTrades p st now xp).pendingTrades =
      st.pendingTrades.filter (fun t => now < t.expiryTime) := by
  unfold updatePendingTrades
  simpa using (updatePending_foldl p now xp st.pendingTrades st []).1

/-- The `_update_pending_trades` preserves `cash - sum of completed profits`. -/
theorem updatePendingTrades_ledger (p : MRParams) (st : MRState) (now xp : ℚ) :
    (updatePendingTrades p st now xp).cash -
        (((updatePendingTrades p st now xp).completedTrades.map MRTrade.profit).sum) =
      st.cash - ((st.completedTrades.map MRTrade.profit).sum) := by
  unfold updatePendingTrades
  simpa using (updatePending_foldl p now xp st.pendingTrades st []).2.2

/-- Opening a trade changes neither the broker cash nor the completed
list. -/
theorem executeTrade_cash_completed (p : MRParams) (st : MRState)
    (d : Direction) (strength : ℤ) (now price : ℚ) :
    (executeTrade p st d strength now price).cash = st.cash ∧
    (executeTrade p st d strength now price).completedTrades =
      st.completedTrades := by
  exact ⟨rfl, rfl⟩

/-- One candle step preserves `cash - sum of completed profits`. -/
theorem MRnext_ledger (p : MRParams) (st : MRState) (c : Candle) :
    (MRnext p st c).cash - (((MRnext p st c).completedTrades.map MRTrade.profit).sum) =
      st.cash - ((st.completedTrades.map MRTrade.profit).sum) := by
  unfold MRnext
  split_ifs
  · rfl
  · rfl
  · cases hs : c.signal with
    | none => simpa using updatePendingTrades_ledger p st c.time c.closePrice
    | some s =>
      rcases s with ⟨d, strength⟩
      have he := executeTrade_cash_completed p
        (updatePendingTrades p st c.time c.closePrice) d strength c.time c.closePrice
      simp only [he.1, he.2]
      simpa using updatePendingTrades_ledger p st c.time c.closePrice

/-! ## C5 — ledger conservation -/

/-- C5: across an entire run (hence at every prefix of the candle feed),
the broker cash minus the initial cash equals the sum of `profit` over all
settled trades — cash is mutated only at settlement, additively by each
settled trade's profit. -/
theorem ledger_conservation :
    ∀ (p : MRParams) (initialCash : ℚ) (candles : List Candle),
      (MRrun p initialCash candles).cash =
        initialCash +
          (((MRrun p initialCash candles).completedTrades.map MRTrade.profit).sum) := by
  intro p initialCash candles
  have key : ∀ (l : List Candle) (st : MRState),
      (l.foldl (MRnext p) st).cash -
          (((l.foldl (MRnext p) st).completedTrades.map MRTrade.profit).sum) =
        st.cash - ((st.completedTrades.map MRTrade.profit).sum) := by
    intro l
    induction l with
    | nil => intro st; rfl
    | cons c rest ih =>
      intro st
      rw [List.foldl_cons]
      rw [ih (MRnext p st c)]
      exact MRnext_ledger p st c
  have h := key candles (MRState.init initialCash)
  have h2 : (MRState.init initialCash).cash -
      (((MRState.init initialCash).completedTrades.map MRTrade.profit).sum) =
      initialCash := by
    simp [MRState.init]
  rw [h2] at h
  unfold MRrun
  linarith [h]

/-! ## C9 — concurrency bound -/

/-- One candle step keeps the pending-trade count within
`max_concurrent_trades` (the early return fires when the count has
reached the limit, and settlement only shrinks the list before at most
one new trade is appended). -/
theorem MRnext_length (p : MRParams) (st : MRState) (c : Candle)
    (h : st.pendingTrades.length ≤ p.maxConcurrentTrades) :
    (MRnext p st c).pendingTrades.length ≤ p.maxConcurrentTrades := by
  unfold MRnext
  split_ifs with h1 h2
  · exact h
  · exact h
  · have hlt : st.pendingTrades.length < p.maxConcurrentTrades :=
      lt_of_not_le h2
    have hupd : (updatePendingTrades p st c.time c.closePrice).pendingTrades.length ≤
        st.pendingTrades.length := by
      rw [updatePendingTrades_pending]
      exact List.length_filter_le _ _
    cases hs : c.signal with
    | none => exact le_trans hupd (le_of_lt hlt)
    | some s =>
      rcases s with ⟨d, strength⟩
      have : (executeTrade p (updatePendingTrades p st c.time c.closePrice)
          d strength c.time c.closePrice).pendingTrades.length =
          (updatePendingTrades p st c.time c.closePrice).pendingTrades.length + 1 := by
        simp [executeTrade]
      rw [this]
      omega

/-- C9 (amended): in `MeanReversionStrategy` the number of simultaneously
open (pending) trades never exceeds `max_concurrent_trades` at any point
of any run; `MeanReversionStrategyV4`, by contrast, never consults
`max_concurrent_trades` (see the counterexample). -/
theorem mean_reversion_concurrency_bound :
    ∀ (p : MRParams) (initialCash : ℚ) (candles : List Candle),
      (MRrun p initialCash candles).pendingTrades.length ≤
        p.maxConcurrentTrades := by
  intro p initialCash candles
  have key : ∀ (l : List Candle) (st : MRState),
      st.pendingTrades.length ≤ p.maxConcurrentTrades →
      (l.foldl (MRnext p) st).pendingTrades.length ≤ p.maxConcurrentTrades := by
    intro l
    induction l with
    | nil => intro st h; exact h
    | cons c rest ih =>
      intro st h
      rw [List.foldl_cons]
      exact ih (MRnext p st c) (MRnext_length p st c h)
  exact key candles (MRState.init initialCash) (by simp [MRState.init])

/-- C9 counterexample: `MeanReversionStrategyV4.next` performs no
concurrency check, so a run with `max_concurrent_trades = 1` ends up with
2 contracts open simultaneously (two CALL signals one minute apart, with
the default 2-minute expiry and 1-minute cooldown). -/
theorem v4_opens_beyond_concurrency_limit :
    ({ maxConcurrentTrades := 1 : V4Params }).maxConcurrentTrades <
      (v4Run { maxConcurrentTrades := 1 } 1000
        [{ time := 0, closePrice := 100, signal := some (Direction.CALL, 2) },
         { time := 1, closePrice := 101, signal := some (Direction.CALL, 2) }]).openTrades.length := by
  norm_num [v4Run, v4Next, V4State.init, v4InCooldown, v4BrokerSettle,
    v4ExecuteTrade, v4CalculateStake, v4ClampedStake, v4StrengthMultiplier,
    round2, roundHalfEven]

/-! ## C6 — stake clamping -/

/-- The integer produced by `roundHalfEven` is within one half of its
argument. -/
theorem abs_roundHalfEven_sub (y : ℚ) :
    |((roundHalfEven y : ℤ) : ℚ) - y| ≤ 1/2 := by
  simp only [roundHalfEven]
  have h0 : ((⌊y⌋ : ℤ) : ℚ) ≤ y := Int.floor_le y
  have h1 : y < (⌊y⌋ : ℤ) + 1 := Int.lt_floor_add_one y
  split_ifs with hr1 hr2 hpar
  · rw [abs_sub_comm, abs_of_nonneg (by linarith)]
    linarith
  · rw [abs_of_nonneg (by push_cast; linarith)]
    push_cast
    linarith
  · rw [abs_sub_comm, abs_of_nonneg (by linarith)]
    linarith
  · rw [abs_of_nonneg (by push_cast; linarith)]
    push_cast
    linarith

/-- The `round(x, 2)` moves the value by at most half a cent. -/
theorem abs_round2_sub (x : ℚ) : |round2 x - x| ≤ 1/200 := by
  unfold round2
  have h := abs_roundHalfEven_sub (x * 100)
  have heq : ((roundHalfEven (x * 100) : ℤ) : ℚ) / 100 - x =
      (((roundHalfEven (x * 100) : ℤ) : ℚ) - x * 100) / 100 := by ring
  rw [heq, abs_div]
  rw [show |(100 : ℚ)| = 100 by norm_num]
  rw [show (1 : ℚ)/200 = (1/2)/100 by norm_num]
  exact (div_le_div_iff_of_pos_right (by norm_num)).mpr h

/-- C6 (amended): with a valid configuration (`min_stake_pct ≤
max_stake_pct`) and non-negative cash, the clamped stake satisfies
`min_stake_pct * cash ≤ stake ≤ max_stake_pct * cash` *before* the final
`round(stake, 2)`, and the returned value differs from that clamped value
by at most half a cent — the clamp does not hold exactly after rounding
(see the counterexample). -/
theorem stake_clamp_bounds :
    ∀ (p : MRParams) (st : MRState) (strength : ℤ),
      p.minStakePct ≤ p.maxStakePct → 0 ≤ st.cash →
      st.cash * p.minStakePct ≤ clampedStake p st strength ∧
      clampedStake p st strength ≤ st.cash * p.maxStakePct ∧
      |calculateStake p st strength - clampedStake p st strength| ≤ 1/200 := by
  intro p st strength hpct hcash
  refine ⟨?_, ?_, ?_⟩
  · simp only [clampedStake]
    exact le_max_left _ _
  · simp only [clampedStake]
    exact max_le (mul_le_mul_of_nonneg_left hpct hcash) (min_le_right _ _)
  · exact abs_round2_sub (clampedStake p st strength)

/-- Witness for C6 (amended) at the default parameters, fresh state and a
strength-1 signal. -/
theorem stake_clamp_bounds_witness :
    (MRState.init 1000).cash * ({} : MRParams).minStakePct ≤
        clampedStake {} (MRState.init 1000) 1 ∧
      clampedStake {} (MRState.init 1000) 1 ≤
        (MRState.init 1000).cash * ({} : MRParams).maxStakePct ∧
      |calculateStake {} (MRState.init 1000) 1 -
          clampedStake {} (MRState.init 1000) 1| ≤ 1/200 :=
  stake_clamp_bounds {} (MRState.init 1000) 1 (by norm_num) (by norm_num [MRState.init])

/-- C6 counterexample: the claim is false after the final rounding.  With
cash 1005... here cash 1003, `base_stake_pct = min_stake_pct = 0.001`, the
clamped stake is `1.003` (the exact lower bound), but `round(1.003, 2) =
1.00`, strictly below `min_stake_pct * cash`. -/
theorem rounded_stake_escapes_clamp :
    calculateStake { baseStakePct := 1/1000 } (MRState.init 1003) 1 <
      (MRState.init 1003).cash * ({ baseStakePct := 1/1000 } : MRParams).minStakePct := by
  norm_num [calculateStake, clampedStake, strengthMultiplier, round2,
    roundHalfEven, MRState.init]

/-! ## C7 — strength bonus -/

/-- C7 (amended): the code's strength multiplier is
`1 + (strength - baseline) * 0.1` with *no* `max(0, ·)` floor.  At or
above the baseline it agrees with the spec formula
`1 + max(0, strength - baseline) * strength_bonus_pct` (equal to 1 exactly
at the baseline, and never shrinking the stake), but strictly below the
baseline the multiplier is `< 1` and shrinks the stake. -/
theorem strength_bonus_vs_spec_formula :
    (∀ s : ℤ, 1 ≤ s → strengthMultiplier s = strengthBonusSpec s) ∧
    (∀ s : ℤ, 2 ≤ s → v4StrengthMultiplier s = v4StrengthBonusSpec s) ∧
    strengthMultiplier 1 = 1 ∧
    v4StrengthMultiplier 2 = 1 ∧
    (∀ s : ℤ, s < 1 → strengthMultiplier s < 1) ∧
    (∀ s : ℤ, s < 2 → v4StrengthMultiplier s < 1) ∧
    (∀ (stake : ℚ) (s : ℤ), 0 ≤ stake → 2 ≤ s →
      stake ≤ stake * v4StrengthMultiplier s) := by
  refine ⟨?_, ?_, by norm_num [strengthMultiplier], by norm_num [v4StrengthMultiplier],
    ?_, ?_, ?_⟩
  · intro s hs
    rw [strengthMultiplier, strengthBonusSpec, max_eq_right (by omega : (0:ℤ) ≤ s - 1)]
    push_cast
    ring
  · intro s hs
    rw [v4StrengthMultiplier, v4StrengthBonusSpec, max_eq_right (by omega : (0:ℤ) ≤ s - 2)]
    push_cast
    ring
  · intro s hs
    have hq : (s : ℚ) ≤ 0 := by exact_mod_cast (show s ≤ 0 by omega)
    rw [strengthMultiplier]
    linarith
  · intro s hs
    have hq : (s : ℚ) ≤ 1 := by exact_mod_cast (show s ≤ 1 by omega)
    rw [v4StrengthMultiplier]
    linarith
  · intro stake s h0 h2
    have hq : (2 : ℚ) ≤ (s : ℚ) := by exact_mod_cast h2
    have hm : 1 ≤ v4StrengthMultiplier s := by
      rw [v4StrengthMultiplier]; linarith
    exact le_mul_of_one_le_right h0 hm

/-- Witness for C7 (amended) at concrete strengths. -/
theorem strength_bonus_vs_spec_formula_witness :
    strengthMultiplier 2 = strengthBonusSpec 2 ∧
    v4StrengthMultiplier 3 = v4StrengthBonusSpec 3 ∧
    strengthMultiplier 0 < 1 ∧
    v4StrengthMultiplier 1 < 1 ∧
    (5 : ℚ) ≤ 5 * v4StrengthMultiplier 3 :=
  ⟨strength_bonus_vs_spec_formula.1 2 (by norm_num),
    strength_bonus_vs_spec_formula.2.1 3 (by norm_num),
    strength_bonus_vs_spec_formula.2.2.2.2.1 0 (by norm_num),
    strength_bonus_vs_spec_formula.2.2.2.2.2.1 1 (by norm_num),
    strength_bonus_vs_spec_formula.2.2.2.2.2.2 5 3 (by norm_num) (by norm_num)⟩

/-- C7 counterexample: in V4 (baseline strength 2) a strength-1 signal —
a legal value of the signal interface (`strength: integer >= 1`) — gets
multiplier `0.9`, not `1`, so the claim's `max(0, ·)` formula is not what
the code computes below the baseline and the stake shrinks below its
pre-bonus value: the fresh-state stake drops from base `10` to `9`. -/
theorem weak_signal_shrinks_stake :
    v4StrengthMultiplier 1 ≠ v4StrengthBonusSpec 1 ∧
    v4StrengthMultiplier 1 < 1 ∧
    v4CalculateStake {} (V4State.init 1000) 1 <
      (V4State.init 1000).cash * ({} : V4Params).baseStakePct := by
  refine ⟨by norm_num [v4StrengthMultiplier, v4StrengthBonusSpec], ?_, ?_⟩
  · norm_num [v4StrengthMultiplier]
  · norm_num [v4CalculateStake, v4ClampedStake, v4StrengthMultiplier, round2,
      roundHalfEven, V4State.init]

/-! ## C8 — settlement ordering within a candle -/

/-- C8 (amended): on a candle where both gates pass (no cooldown, pending
count strictly below the limit), `MeanReversionStrategy.next` settles
every expired pending trade strictly before the new entry is recorded —
afterwards every pending trade, the freshly opened one included, has an
expiry strictly after the candle time.  (On a gate-rejected candle
settlement is skipped entirely — see the counterexample.) -/
theorem settlement_precedes_entry_when_gates_pass :
    ∀ (p : MRParams) (st : MRState) (c : Candle),
      0 < p.expiryMinutes →
      inCooldown p st c.time = false →
      st.pendingTrades.length < p.maxConcurrentTrades →
      ∀ t ∈ (MRnext p st c).pendingTrades, c.time < t.expiryTime := by
  intro p st c hexp hcd hlen t ht
  unfold MRnext at ht
  rw [hcd] at ht
  rw [if_neg (by simp)] at ht
  rw [if_neg (not_le.mpr hlen)] at ht
  cases hs : c.signal with
  | none =>
    rw [hs] at ht
    rw [updatePendingTrades_pending] at ht
    rw [List.mem_filter] at ht
    exact of_decide_eq_true ht.2
  | some s =>
    rcases s with ⟨d, strength⟩
    rw [hs] at ht
    simp only [executeTrade, List.mem_append] at ht
    rcases ht with ht | ht
    · rw [updatePendingTrades_pending] at ht
      rw [List.mem_filter] at ht
      exact of_decide_eq_true ht.2
    · rw [List.mem_singleton] at ht
      rw [ht]
      simpa using hexp

/-- Witness for C8 (amended): a fresh state, default parameters and a
CALL signal at time 0 leave a single pending trade expiring at 3 > 0. -/
theorem settlement_precedes_entry_when_gates_pass_witness :
    (0 : ℚ) < c8Trade.expiryTime :=
  settlement_precedes_entry_when_gates_pass {} (MRState.init 1000)
    { time := 0, closePrice := 100, signal := some (Direction.CALL, 1) }
    (by norm_num) (by norm_num [inCooldown, MRState.init])
    (by norm_num [MRState.init]) c8Trade
    (by norm_num [MRnext, MRState.init, inCooldown, updatePendingTrades,
      executeTrade, calculateStake, clampedStake, strengthMultiplier, round2,
      roundHalfEven, c8Trade])

/-- C8 counterexample: `MeanReversionStrategy.next` checks the cooldown
gate *before* `_update_pending_trades`, so on a candle inside the cooldown
window an already-expired contract is not settled.  With a 1-minute expiry
and a 3-minute cooldown, the trade opened at time 0 has expired by the
candle at time 1, yet after that candle it is still pending and nothing is
completed; it is settled only on the later candle at time 3 where the gate
passes. -/
theorem cooldown_skips_expired_settlement :
    (MRrun { expiryMinutes := 1, cooldownMinutes := 3 } 1000
        [{ time := 0, closePrice := 100, signal := some (Direction.CALL, 1) },
         { time := 1, closePrice := 101, signal := none }]).completedTrades = [] ∧
    (MRrun { expiryMinutes := 1, cooldownMinutes := 3 } 1000
        [{ time := 0, closePrice := 100, signal := some (Direction.CALL, 1) },
         { time := 1, closePrice := 101, signal := none }]).pendingTrades.map
      MRTrade.expiryTime = [1] ∧
    ((MRrun { expiryMinutes := 1, cooldownMinutes := 3 } 1000
        [{ time := 0, closePrice := 100, signal := some (Direction.CALL, 1) },
         { time := 1, closePrice := 101, signal := none },
         { time := 3, closePrice := 99, signal := none }]).completedTrades.map
      MRTrade.exitPrice) = [some 99] := by
  refine ⟨?_, ?_, ?_⟩ <;>
    norm_num [MRrun, MRnext, MRState.init, inCooldown, updatePendingTrades,
      executeTrade, calculateStake, clampedStake, strengthMultiplier, round2,
      roundHalfEven, settleTrade, tradeWon, updateAntiMartingale]

end DerivBot
